import Mathlib

/-!
Shallow embedding of the aggregation pipeline of `src/app.py` (a pandas +
streamlit dashboard).  Timestamps are modelled as `Nat` seconds since an
epoch aligned to a day boundary; calendar dates as `Nat` day indices, so
`pd.Timestamp(date)` is `date * 86400` and the hourly source rows are
arbitrary second values.  Metric values (`tps`, `pods`) are modelled as `ℚ`.

The script raises ordinary Python exceptions in some corners; those are
modelled by the `Err` type below together with the error names that the
specification's taxonomy uses (which the script itself never raises).
-/

/-- One row of the source dataframe `df` (columns `hour, service, tps, pods`). -/
structure Obs where
  hour : Nat
  service : String
  tps : ℚ
  pods : ℚ
deriving DecidableEq, Repr

/-- The `time_window` selectbox value: `"Hour" | "Day" | "Week"`. -/
inductive TimeWindow where
  | Hour | Day | Week
deriving DecidableEq, Repr

/-- The `agg_method` selectbox value: `"Maximum" | "Average" | "Minimum"`
(mapped by `agg_map` to pandas `max | mean | min`). -/
inductive AggMethod where
  | Maximum | Average | Minimum
deriving DecidableEq, Repr

/-- Failure outcomes.  The first four constructors are the specification's
error taxonomy (`InvalidRange`, `EmptySelection`, `NoDataForService`,
`InsufficientData`); the embedded script never produces them.  The last
three model the Python exceptions the script can actually raise:
`indexOutOfRange` is the `IndexError` from `date_range[1]` on a short
tuple, `nonFixedFrequencyFloor` is the `ValueError` that pandas
`Series.dt.floor("W")` raises (`<Week: weekday=6> is a non-fixed
frequency`, raised independently of the data), and `emptyArgmax` is the
`ValueError` from `Series.idxmax()` on an empty series. -/
inductive Err where
  | invalidRange | emptySelection | noDataForService | insufficientData
  | indexOutOfRange | nonFixedFrequencyFloor | emptyArgmax
deriving DecidableEq, Repr

/-- Midnight of calendar day `d`, i.e. `pd.Timestamp(date_range[i])`. -/
def dayStart (d : Nat) : Nat := d * 86400

/-- End-of-day bound `pd.Timestamp(d) + Timedelta(days=1) - Timedelta(seconds=1)`,
i.e. 23:59:59 of day `d` (line 82 of the script). -/
def dayEnd (d : Nat) : Nat := (d + 1) * 86400 - 1

/-- Lines 83 and 86: `df_filtered = df[(df.hour >= start) & (df.hour <= end)]`
followed by `df_filtered[df_filtered.service.isin(selected_services)]`. -/
def df_filtered (obs : List Obs) (d1 d2 : Nat) (selected_services : List String) : List Obs :=
  (obs.filter fun o => decide (dayStart d1 ≤ o.hour) && decide (o.hour ≤ dayEnd d2)).filter
    fun o => selected_services.contains o.service

/-- A row of `df_filtered` after the `group` column has been assigned
(lines 89-94). -/
structure BRow where
  group : Nat
  service : String
  tps : ℚ
  pods : ℚ
deriving DecidableEq, Repr

/-- Pandas `floor("D")`: truncate a timestamp to midnight of its day. -/
def floorDay (t : Nat) : Nat := (t / 86400) * 86400

/-- Lexicographic comparison of strings by Unicode code point, as Python
compares `str` values and pandas sorts string group keys. -/
def strLe : List Char → List Char → Bool
  | [], _ => true
  | _ :: _, [] => false
  | a :: as, b :: bs =>
    if a.toNat < b.toNat then true
    else if b.toNat < a.toNat then false
    else strLe as bs

/-- Ascending order on `(group, service)` keys, matching the sorted group
order of `groupby(["group", "service"])`. -/
def keyLE (a b : Nat × String) : Bool :=
  if a.1 < b.1 then true
  else if b.1 < a.1 then false
  else strLe a.2.data b.2.data

/-- Insert a key into a `keyLE`-sorted list. -/
def insertKey (x : Nat × String) : List (Nat × String) → List (Nat × String)
  | [] => [x]
  | y :: ys => if keyLE x y then x :: y :: ys else y :: insertKey x ys

/-- Insertion sort of group keys by `keyLE`. -/
def sortKeys : List (Nat × String) → List (Nat × String)
  | [] => []
  | x :: xs => insertKey x (sortKeys xs)

/-- The distinct `(group, service)` keys of the bucketed rows, in the sorted
order pandas `groupby` (with the default `sort=True`) emits them. -/
def group_keys (rows : List BRow) : List (Nat × String) :=
  sortKeys ((rows.map fun r => (r.group, r.service)).dedup)

/-- Reduction of one group's column with the selected statistic
(`agg({"tps": m, "pods": m})`).  Groups are never empty, so the `[]` value
is irrelevant. -/
def reduce_stat (m : AggMethod) : List ℚ → ℚ
  | [] => 0
  | x :: t =>
    match m with
    | .Maximum => t.foldl max x
    | .Average => ((x :: t).sum) / ((x :: t).length : ℚ)
    | .Minimum => t.foldl min x

/-- A row of `df_agg` (line 104-107). -/
structure ARow where
  group : Nat
  service : String
  tps : ℚ
  pods : ℚ
deriving DecidableEq, Repr

/-- The aggregated row for one group key. -/
def aggRow (m : AggMethod) (rows : List BRow) (k : Nat × String) : ARow :=
  { group := k.1, service := k.2,
    tps := reduce_stat m ((rows.filter fun r => r.group == k.1 && r.service == k.2).map (·.tps)),
    pods := reduce_stat m ((rows.filter fun r => r.group == k.1 && r.service == k.2).map (·.pods)) }

/-- Lines 104-107: `df_agg = df_filtered.groupby(["group","service"]).agg(...)
.reset_index()` — one output row per distinct key, keys sorted ascending,
each metric column reduced independently by the chosen statistic. -/
def df_agg (m : AggMethod) (rows : List BRow) : List ARow :=
  (group_keys rows).map (aggRow m rows)

/-- Lines 80-107, the whole pipeline from the raw rows and the sidebar
control values to `df_agg`.  `date_range` is the tuple returned by the
date widget (normally two dates).  Indexing `date_range[0]` / `date_range[1]`
raises `IndexError` on a short tuple; the `Week` branch calls
`df_filtered.hour.dt.floor("W")`, which raises `ValueError` in pandas
because a week is a non-fixed frequency (the check happens before any data
is touched, so it fires even on an empty frame). -/
def aggregate (obs : List Obs) (date_range : List Nat) (time_window : TimeWindow)
    (agg_method : AggMethod) (selected_services : List String) : Except Err (List ARow) :=
  match date_range[0]?, date_range[1]? with
  | some d1, some d2 =>
    let dfF := df_filtered obs d1 d2 selected_services
    match time_window with
    | .Week => .error .nonFixedFrequencyFloor
    | .Day => .ok (df_agg agg_method (dfF.map fun o => ⟨floorDay o.hour, o.service, o.tps, o.pods⟩))
    | .Hour => .ok (df_agg agg_method (dfF.map fun o => ⟨o.hour, o.service, o.tps, o.pods⟩))
  | _, _ => .error .indexOutOfRange

/-- The statistics the loop of lines 169-199 computes for one service when
both metrics are shown: peak value, peak time and average for `tps` and for
`pods`. -/
structure SStats where
  peakTps : ℚ
  peakTpsTime : Nat
  avgTps : ℚ
  peakPods : ℚ
  peakPodsTime : Nat
  avgPods : ℚ
deriving DecidableEq, Repr

/-- First row of a nonempty list attaining the maximum of `f`, i.e. the row
`Series.idxmax()` selects (pandas returns the first label among ties). -/
def firstArgmax (f : ARow → ℚ) (r : ARow) (rs : List ARow) : ARow :=
  rs.foldl (fun best x => if f x > f best then x else best) r

/-- Lines 170-197 for one service: filter `df_agg` to the service, then
`max()`, `idxmax()` (whose row gives the peak time) and `mean()` for each
metric.  On a service with no rows, `idxmax` raises `ValueError`
("attempt to get argmax of an empty sequence"). -/
def service_stats (dfa : List ARow) (service : String) : Except Err SStats :=
  match dfa.filter fun r => r.service == service with
  | [] => .error .emptyArgmax
  | r :: rs =>
    .ok { peakTps := rs.foldl (fun a x => max a x.tps) r.tps
          peakTpsTime := (firstArgmax (·.tps) r rs).group
          avgTps := ((r :: rs).map (·.tps)).sum / ((r :: rs).length : ℚ)
          peakPods := rs.foldl (fun a x => max a x.pods) r.pods
          peakPodsTime := (firstArgmax (·.pods) r rs).group
          avgPods := ((r :: rs).map (·.pods)).sum / ((r :: rs).length : ℚ) }

/-- Result of pandas `Series.corr`: either a number or `NaN`.  The value is
kept symbolically as the covariance numerator together with the product of
the two squared deviations, since the actual coefficient divides by a
square root; `nan` is returned exactly when the denominator is zero (which
includes every series of fewer than two points). -/
inductive CorrResult where
  | nan
  | val (num : ℚ) (denSq : ℚ)
deriving DecidableEq, Repr

/-- Pandas `Series.corr` (Pearson) over paired samples, up to the final
square root: `nan` when either deviation sum is zero (constant or
length < 2 series), otherwise the pair of the covariance sum and the
product of the squared deviation sums. -/
def series_corr (pairs : List (ℚ × ℚ)) : CorrResult :=
  let n : ℚ := (pairs.length : ℚ)
  if pairs.length = 0 then .nan else
  let mx := (pairs.map (·.1)).sum / n
  let my := (pairs.map (·.2)).sum / n
  let sx := (pairs.map fun p => (p.1 - mx) ^ 2).sum
  let sy := (pairs.map fun p => (p.2 - my) ^ 2).sum
  if sx = 0 ∨ sy = 0 then .nan
  else .val ((pairs.map fun p => (p.1 - mx) * (p.2 - my)).sum) (sx * sy)

/-- Lines 229-250: when exactly one service is selected and both metrics are
shown, the script computes `service_data.tps.corr(service_data.pods)` over
that service's aggregated rows and renders the result (NaN included) — it
raises nothing. -/
def correlation_coefficient (dfa : List ARow) (service : String) : CorrResult :=
  series_corr ((dfa.filter fun r => r.service == service).map fun r => (r.tps, r.pods))

/-! Basic lemmas about the key order and the insertion sort. -/

theorem strLe_total : ∀ a b : List Char, strLe a b = true ∨ strLe b a = true
  | [], _ => Or.inl rfl
  | _ :: _, [] => Or.inr rfl
  | a :: as, b :: bs => by
    rcases Nat.lt_trichotomy a.toNat b.toNat with h | h | h
    · left; simp [strLe, h]
    · rcases strLe_total as bs with ih | ih
      · left; simp [strLe, h, ih]
      · right; simp [strLe, h, ih]
    · right; simp [strLe, h]

theorem strLe_trans : ∀ a b c : List Char,
    strLe a b = true → strLe b c = true → strLe a c = true
  | [], _, _, _, _ => rfl
  | _ :: _, [], _, h1, _ => by simp [strLe] at h1
  | _ :: _, _ :: _, [], _, h2 => by simp [strLe] at h2
  | a :: as, b :: bs, c :: cs, h1, h2 => by
    rcases Nat.lt_trichotomy a.toNat b.toNat with hab | hab | hab
    · rcases Nat.lt_trichotomy b.toNat c.toNat with hbc | hbc | hbc
      · simp [strLe, Nat.lt_trans hab hbc]
      · simp [strLe, hbc ▸ hab]
      · simp [strLe, hbc, Nat.lt_asymm hbc] at h2
    · rcases Nat.lt_trichotomy b.toNat c.toNat with hbc | hbc | hbc
      · simp [strLe, hab ▸ hbc]
      · simp only [strLe, hab, hbc, lt_irrefl, if_false] at h1 h2 ⊢
        exact strLe_trans as bs cs h1 h2
      · simp [strLe, hbc, Nat.lt_asymm hbc] at h2
    · simp [strLe, hab, Nat.lt_asymm hab] at h1

theorem keyLE_total (a b : Nat × String) : keyLE a b = true ∨ keyLE b a = true := by
  rcases Nat.lt_trichotomy a.1 b.1 with h | h | h
  · left; simp [keyLE, h]
  · rcases strLe_total a.2.data b.2.data with h2 | h2
    · left; simp [keyLE, h, h2]
    · right; simp [keyLE, h, h2]
  · right; simp [keyLE, h]

theorem keyLE_trans (a b c : Nat × String)
    (h1 : keyLE a b = true) (h2 : keyLE b c = true) : keyLE a c = true := by
  rcases Nat.lt_trichotomy a.1 b.1 with hab | hab | hab
  · rcases Nat.lt_trichotomy b.1 c.1 with hbc | hbc | hbc
    · simp [keyLE, Nat.lt_trans hab hbc]
    · simp [keyLE, hbc ▸ hab]
    · simp [keyLE, hbc, Nat.lt_asymm hbc] at h2
  · rcases Nat.lt_trichotomy b.1 c.1 with hbc | hbc | hbc
    · simp [keyLE, hab ▸ hbc]
    · simp only [keyLE, hab, hbc, lt_irrefl, if_false] at h1 h2 ⊢
      exact strLe_trans _ _ _ h1 h2
    · simp [keyLE, hbc, Nat.lt_asymm hbc] at h2
  · simp [keyLE, hab, Nat.lt_asymm hab] at h1

theorem mem_insertKey {y x : Nat × String} {l : List (Nat × String)} :
    y ∈ insertKey x l ↔ y = x ∨ y ∈ l := by
  induction l with
  | nil => simp [insertKey]
  | cons z zs ih =>
    by_cases h : keyLE x z = true
    · simp [insertKey, h, List.mem_cons]
    · simp [insertKey, h, List.mem_cons, ih]
      tauto

theorem insertKey_perm (x : Nat × String) (l : List (Nat × String)) :
    (insertKey x l).Perm (x :: l) := by
  induction l with
  | nil => simp [insertKey]
  | cons z zs ih =>
    by_cases h : keyLE x z = true
    · rw [insertKey, if_pos h]
    · rw [insertKey, if_neg h]
      exact (ih.cons z).trans (List.Perm.swap x z zs)

theorem sortKeys_perm : ∀ l : List (Nat × String), (sortKeys l).Perm l
  | [] => List.Perm.refl _
  | x :: xs => (insertKey_perm x (sortKeys xs)).trans ((sortKeys_perm xs).cons x)

theorem mem_sortKeys {a : Nat × String} {l : List (Nat × String)} :
    a ∈ sortKeys l ↔ a ∈ l := (sortKeys_perm l).mem_iff

theorem sorted_insertKey {x : Nat × String} {l : List (Nat × String)}
    (h : l.Pairwise fun a b => keyLE a b = true) :
    (insertKey x l).Pairwise fun a b => keyLE a b = true := by
  induction l with
  | nil => simp [insertKey]
  | cons y ys ih =>
    rcases List.pairwise_cons.mp h with ⟨hy, hys⟩
    by_cases hxy : keyLE x y = true
    · rw [insertKey, if_pos hxy]
      refine List.pairwise_cons.mpr ⟨?_, h⟩
      intro z hz
      rcases List.mem_cons.mp hz with rfl | hz
      · exact hxy
      · exact keyLE_trans _ _ _ hxy (hy z hz)
    · rw [insertKey, if_neg hxy]
      refine List.pairwise_cons.mpr ⟨?_, ih hys⟩
      intro z hz
      rcases mem_insertKey.mp hz with heq | hz
      · rw [heq]
        exact (keyLE_total x y).resolve_left hxy
      · exact hy z hz

theorem sorted_sortKeys : ∀ l : List (Nat × String),
    (sortKeys l).Pairwise fun a b => keyLE a b = true
  | [] => List.Pairwise.nil
  | _ :: xs => sorted_insertKey (sorted_sortKeys xs)

/-! Lemmas about the group keys and `df_agg`. -/

theorem mem_group_keys {rows : List BRow} {g : Nat} {s : String} :
    (g, s) ∈ group_keys rows ↔ ∃ r ∈ rows, r.group = g ∧ r.service = s := by
  rw [group_keys, mem_sortKeys, List.mem_dedup, List.mem_map]
  constructor
  · rintro ⟨r, hr, heq⟩
    exact ⟨r, hr, congrArg Prod.fst heq, congrArg Prod.snd heq⟩
  · rintro ⟨r, hr, h1, h2⟩
    exact ⟨r, hr, by rw [h1, h2]⟩

theorem nodup_group_keys (rows : List BRow) : (group_keys rows).Nodup :=
  ((sortKeys_perm _).nodup_iff).mpr (List.nodup_dedup _)

theorem sorted_group_keys (rows : List BRow) :
    (group_keys rows).Pairwise fun a b => keyLE a b = true := sorted_sortKeys _

theorem mem_df_agg {m : AggMethod} {rows : List BRow} {a : ARow} :
    a ∈ df_agg m rows ↔ ∃ k ∈ group_keys rows, a = aggRow m rows k := by
  simp [df_agg, List.mem_map, eq_comm]

theorem df_agg_keys (m : AggMethod) (rows : List BRow) :
    (df_agg m rows).map (fun a => (a.group, a.service)) = group_keys rows := by
  rw [df_agg, List.map_map]
  have : ((fun a : ARow => (a.group, a.service)) ∘ aggRow m rows) = id := by
    funext k
    rfl
  rw [this, List.map_id]

theorem df_agg_values {m : AggMethod} {rows : List BRow} {a : ARow} (h : a ∈ df_agg m rows) :
    a.tps = reduce_stat m
        ((rows.filter fun r => r.group == a.group && r.service == a.service).map (·.tps)) ∧
    a.pods = reduce_stat m
        ((rows.filter fun r => r.group == a.group && r.service == a.service).map (·.pods)) := by
  rcases mem_df_agg.mp h with ⟨k, _, rfl⟩
  exact ⟨rfl, rfl⟩

theorem mem_df_filtered {obs : List Obs} {d1 d2 : Nat} {svc : List String} {o : Obs} :
    o ∈ df_filtered obs d1 d2 svc ↔
      o ∈ obs ∧ (dayStart d1 ≤ o.hour ∧ o.hour ≤ dayEnd d2) ∧ o.service ∈ svc := by
  simp [df_filtered, List.mem_filter, List.elem_iff, and_assoc]
  tauto

theorem keyLE_ne_same_snd {a b : Nat × String} (h1 : keyLE a b = true) (h2 : a ≠ b)
    (h3 : a.2 = b.2) : a.1 < b.1 := by
  by_cases h : a.1 < b.1
  · exact h
  · exfalso
    rw [keyLE, if_neg h] at h1
    by_cases h' : b.1 < a.1
    · rw [if_pos h'] at h1
      exact Bool.false_ne_true h1
    · exact h2 (Prod.ext (Nat.le_antisymm (Nat.not_lt.mp h') (Nat.not_lt.mp h)) h3)

/-- Filtering a mapped list equals mapping the list filtered by the composed
predicate. -/
theorem filter_map_comm {α β : Type} (f : α → β) (p : β → Bool) :
    ∀ l : List α, (l.map f).filter p = (l.filter fun a => p (f a)).map f
  | [] => rfl
  | x :: xs => by
    by_cases h : p (f x) = true
    · simp [List.filter_cons, h, filter_map_comm f p xs]
    · simp [List.filter_cons, h, filter_map_comm f p xs]

/-- The rows of `df_agg` belonging to one service are the sorted group keys of
that service, aggregated. -/
theorem service_rows_eq (m : AggMethod) (rows : List BRow) (s : String) :
    (df_agg m rows).filter (fun r => r.service == s) =
      ((group_keys rows).filter fun k => k.2 == s).map (aggRow m rows) := by
  rw [df_agg, filter_map_comm]
  exact rfl

/-- Within one service the aggregated rows appear in strictly increasing
`group` order: pandas sorts the group keys and each `(group, service)` pair
occurs once. -/
theorem service_rows_strict_mono (m : AggMethod) (rows : List BRow) (s : String) :
    ((df_agg m rows).filter fun r => r.service == s).Pairwise
      fun a b => a.group < b.group := by
  have hkeys := (sorted_group_keys rows).and (nodup_group_keys rows)
  have hfilt := hkeys.filter (fun k => k.2 == s)
  have himp : ((group_keys rows).filter fun k => k.2 == s).Pairwise
      fun a b => a.1 < b.1 := by
    refine hfilt.imp_of_mem ?_
    intro a b ha hb hab
    have has : a.2 = s := by simpa using (List.mem_filter.mp ha).2
    have hbs : b.2 = s := by simpa using (List.mem_filter.mp hb).2
    exact keyLE_ne_same_snd hab.1 hab.2 (has.trans hbs.symm)
  rw [service_rows_eq]
  exact List.pairwise_map.mpr himp

/-! Lemmas about `idxmax` (first row attaining the maximum). -/

/-- The running `max` of pandas `Series.max` equals the value of the row that
`idxmax` selects. -/
theorem foldl_max_eq_argmax (f : ARow → ℚ) :
    ∀ (rs : List ARow) (r : ARow),
      rs.foldl (fun a x => max a (f x)) (f r) = f (firstArgmax f r rs)
  | [], _ => rfl
  | x :: t, r => by
    have hstep : firstArgmax f r (x :: t) = firstArgmax f (if f x > f r then x else r) t := rfl
    rw [hstep, List.foldl_cons]
    have : max (f r) (f x) = f (if f x > f r then x else r) := by
      by_cases h : f x > f r
      · rw [if_pos h, max_eq_right (le_of_lt h)]
      · rw [if_neg h, max_eq_left (not_lt.mp h)]
    rw [this]
    exact foldl_max_eq_argmax f t _

/-- Specification of `idxmax` on a nonempty service slice whose rows are
strictly increasing in `group`: the selected row attains the maximum of `f`,
and among ties it has the least `group`. -/
theorem firstArgmax_spec (f : ARow → ℚ) :
    ∀ (rs : List ARow) (r : ARow),
      (r :: rs).Pairwise (fun a b => a.group < b.group) →
      firstArgmax f r rs ∈ r :: rs ∧
        (∀ x ∈ r :: rs, f x ≤ f (firstArgmax f r rs)) ∧
        (∀ x ∈ r :: rs, f x = f (firstArgmax f r rs) →
          (firstArgmax f r rs).group ≤ x.group)
  | [], r => by
    intro _
    refine ⟨List.mem_cons_self _ _, ?_, ?_⟩
    · intro z hz
      rw [List.mem_singleton] at hz
      rw [hz]
      exact le_refl _
    · intro z hz _
      rw [List.mem_singleton] at hz
      rw [hz]
      exact le_refl _
  | x :: t, r => by
    intro hpw
    have hstep : firstArgmax f r (x :: t) = firstArgmax f (if f x > f r then x else r) t := rfl
    rcases List.pairwise_cons.mp hpw with ⟨hr, hxt⟩
    rcases List.pairwise_cons.mp hxt with ⟨hx, ht⟩
    have hpw' : ((if f x > f r then x else r) :: t).Pairwise fun a b => a.group < b.group := by
      refine List.pairwise_cons.mpr ⟨?_, ht⟩
      intro z hz
      by_cases h : f x > f r
      · rw [if_pos h]
        exact hx z hz
      · rw [if_neg h]
        exact hr z (List.mem_cons_of_mem x hz)
    obtain ⟨ihmem, ihmax, ihtie⟩ := firstArgmax_spec f t (if f x > f r then x else r) hpw'
    rw [hstep]
    refine ⟨?_, ?_, ?_⟩
    · rcases List.mem_cons.mp ihmem with heq | hmem
      · rw [heq]
        by_cases h : f x > f r
        · rw [if_pos h]
          exact List.mem_cons_of_mem r (List.mem_cons_self x t)
        · rw [if_neg h]
          exact List.mem_cons_self r _
      · exact List.mem_cons_of_mem r (List.mem_cons_of_mem x hmem)
    · intro z hz
      have hhead := ihmax _ (List.mem_cons_self _ _)
      rcases List.mem_cons.mp hz with heq | hz
      · rw [heq]
        by_cases h : f x > f r
        · rw [if_pos h] at hhead ⊢
          exact le_trans (le_of_lt h) hhead
        · rw [if_neg h] at hhead ⊢
          exact hhead
      · rcases List.mem_cons.mp hz with heq | hz
        · rw [heq]
          by_cases h : f x > f r
          · rw [if_pos h] at hhead ⊢
            exact hhead
          · rw [if_neg h] at hhead ⊢
            exact le_trans (not_lt.mp h) hhead
        · exact ihmax z (List.mem_cons_of_mem _ hz)
    · intro z hz htie
      have hheadt := ihtie _ (List.mem_cons_self _ _)
      have hheadm := ihmax _ (List.mem_cons_self _ _)
      rcases List.mem_cons.mp hz with heq | hz
      · -- z is the head r
        rw [heq] at htie ⊢
        by_cases h : f x > f r
        · rw [if_pos h] at htie hheadm ⊢
          exfalso
          rw [htie] at h
          exact absurd (lt_of_le_of_lt hheadm h) (lt_irrefl _)
        · rw [if_neg h] at htie hheadt ⊢
          exact hheadt htie
      · rcases List.mem_cons.mp hz with heq | hz
        · -- z is x, the second row
          rw [heq] at htie ⊢
          by_cases h : f x > f r
          · rw [if_pos h] at htie hheadt ⊢
            exact hheadt htie
          · -- x lost against r; the winner ties with r, whose group precedes x
            rw [if_neg h] at htie hheadt hheadm ⊢
            have hbr : f (firstArgmax f r t) ≤ f r := by
              rw [← htie]
              exact not_lt.mp h
            have hrg : r.group < x.group := hr x (List.mem_cons_self _ _)
            exact le_trans (hheadt (le_antisymm hheadm hbr)) (le_of_lt hrg)
        · -- z lies in the tail t
          exact ihtie z (List.mem_cons_of_mem _ hz) htie

example : df_filtered [⟨0, "a", 10, 2⟩] 0 0 ["a"] = [⟨0, "a", 10, 2⟩] := by decide
example : aggregate [⟨0, "a", 10, 2⟩] [0, 0] .Hour .Maximum ["a"] = .ok [⟨0, "a", 10, 2⟩] := by
  simp [aggregate, df_filtered, df_agg, group_keys, sortKeys, insertKey, aggRow, reduce_stat,
    dayStart, dayEnd]
example : aggregate [⟨0, "a", 10, 2⟩] [0] .Hour .Maximum ["a"] = .error .indexOutOfRange := rfl
example : service_stats [⟨0, "a", 10, 2⟩, ⟨3600, "a", 20, 3⟩] "a" =
    .ok ⟨20, 3600, 15, 3, 3600, 5/2⟩ := by
  simp [service_stats, firstArgmax]
  norm_num
example : correlation_coefficient [⟨0, "a", 10, 2⟩] "a" = .nan := by
  simp [correlation_coefficient, series_corr]

/-! Helper facts for the claim theorems. -/

theorem df_filtered_nil_services (obs : List Obs) (d1 d2 : Nat) :
    df_filtered obs d1 d2 [] = [] := by
  rw [df_filtered]
  apply List.filter_eq_nil_iff.mpr
  intro a _
  simp [List.elem_iff]

theorem df_filtered_empty_window (obs : List Obs) (svc : List String) {d1 d2 : Nat}
    (h : d2 < d1) : df_filtered obs d1 d2 svc = [] := by
  rw [df_filtered]
  have h1 : (obs.filter fun o =>
      decide (dayStart d1 ≤ o.hour) && decide (o.hour ≤ dayEnd d2)) = [] := by
    apply List.filter_eq_nil_iff.mpr
    intro a _
    simp only [dayStart, dayEnd, Bool.and_eq_true, decide_eq_true_eq, not_and]
    omega
  rw [h1, List.filter_nil]

theorem mem_agg_buckets {m : AggMethod} {rows : List BRow} {a : ARow}
    (h : a ∈ df_agg m rows) :
    ∃ r ∈ rows, r.group = a.group ∧ r.service = a.service := by
  rcases mem_df_agg.mp h with ⟨k, hk, rfl⟩
  have hk' : (k.1, k.2) ∈ group_keys rows := by rwa [Prod.mk.eta]
  exact mem_group_keys.mp hk'

theorem reduce_stat_singleton (m : AggMethod) (q : ℚ) : reduce_stat m [q] = q := by
  cases m <;> simp [reduce_stat]

/-! The claims. -/

/-- C1, counterexample: calling the pipeline with the empty service selection
does not fail — it returns the empty bucket collection, and in particular not
an `EmptySelection` error. -/
theorem c1_counterexample :
    aggregate [⟨0, "a", 10, 2⟩, ⟨3600, "a", 20, 3⟩, ⟨7200, "a", 15, 2⟩] [0, 0]
        .Hour .Maximum [] = .ok [] ∧
    aggregate [⟨0, "a", 10, 2⟩, ⟨3600, "a", 20, 3⟩, ⟨7200, "a", 15, 2⟩] [0, 0]
        .Hour .Maximum [] ≠ .error .emptySelection := by
  constructor
  · simp [aggregate, df_filtered_nil_services, df_agg, group_keys, sortKeys]
  · simp [aggregate, df_filtered_nil_services, df_agg, group_keys, sortKeys]

/-- C1, amended: with an empty service set the pipeline never fails with
`EmptySelection`; under `Hour` or `Day` granularity it returns the empty
bucket collection (under `Week` it raises the pandas non-fixed-frequency
error like every other `Week` call). -/
theorem c1_empty_selection_amended (obs : List Obs) (d1 d2 : Nat) (m : AggMethod) :
    aggregate obs [d1, d2] .Hour m [] = .ok [] ∧
    aggregate obs [d1, d2] .Day m [] = .ok [] ∧
    ∀ tw, aggregate obs [d1, d2] tw m [] ≠ .error .emptySelection := by
  have hf := df_filtered_nil_services obs d1 d2
  refine ⟨?_, ?_, ?_⟩
  · simp [aggregate, hf, df_agg, group_keys, sortKeys]
  · simp [aggregate, hf, df_agg, group_keys, sortKeys]
  · intro tw
    cases tw <;> simp [aggregate, hf, df_agg, group_keys, sortKeys]

/-- C2, counterexample: a reversed date range (startDate > endDate) does not
fail — the filter window is empty, so the pipeline returns the empty bucket
collection, not an `InvalidRange` error. -/
theorem c2_counterexample :
    aggregate [⟨0, "a", 10, 2⟩, ⟨3600, "a", 20, 3⟩, ⟨7200, "a", 15, 2⟩] [5, 3]
        .Hour .Maximum ["a"] = .ok [] ∧
    aggregate [⟨0, "a", 10, 2⟩, ⟨3600, "a", 20, 3⟩, ⟨7200, "a", 15, 2⟩] [5, 3]
        .Hour .Maximum ["a"] ≠ .error .invalidRange := by
  have hf := df_filtered_empty_window
    [⟨0, "a", 10, 2⟩, ⟨3600, "a", 20, 3⟩, ⟨7200, "a", 15, 2⟩] ["a"]
    (show (3 : Nat) < 5 by decide)
  constructor
  · simp [aggregate, hf, df_agg, group_keys, sortKeys]
  · simp [aggregate, hf, df_agg, group_keys, sortKeys]

/-- C2, amended: with `startDate > endDate` the pipeline never fails with
`InvalidRange`; the timestamp window `[startDate 00:00:00, endDate 23:59:59]`
is empty, so under `Hour` and `Day` the output is the empty bucket
collection. -/
theorem c2_invalid_range_amended (obs : List Obs) (d1 d2 : Nat) (m : AggMethod)
    (svc : List String) (h : d2 < d1) :
    aggregate obs [d1, d2] .Hour m svc = .ok [] ∧
    aggregate obs [d1, d2] .Day m svc = .ok [] ∧
    ∀ tw, aggregate obs [d1, d2] tw m svc ≠ .error .invalidRange := by
  have hf := df_filtered_empty_window obs svc h
  refine ⟨?_, ?_, ?_⟩
  · simp [aggregate, hf, df_agg, group_keys, sortKeys]
  · simp [aggregate, hf, df_agg, group_keys, sortKeys]
  · intro tw
    cases tw <;> simp [aggregate, hf, df_agg, group_keys, sortKeys]

/-- C2, witness for the amended theorem at a concrete reversed range. -/
theorem c2_invalid_range_witness :
    aggregate [⟨0, "a", 10, 2⟩] [5, 3] .Hour .Maximum ["a"] = .ok [] ∧
    aggregate [⟨0, "a", 10, 2⟩] [5, 3] .Day .Maximum ["a"] = .ok [] ∧
    ∀ tw, aggregate [⟨0, "a", 10, 2⟩] [5, 3] tw .Maximum ["a"] ≠ .error .invalidRange :=
  c2_invalid_range_amended [⟨0, "a", 10, 2⟩] 5 3 .Maximum ["a"] (by decide)

/-- C3: an observation survives the filter step if and only if its timestamp
lies in `[startDate 00:00:00, endDate 23:59:59]` and its service is selected;
consequently every emitted bucket has a selected service and a `bucket_start`
inside the window. -/
theorem c3_filter_window (obs : List Obs) (d1 d2 : Nat) (svc : List String)
    (tw : TimeWindow) (m : AggMethod) (_h1 : d1 ≤ d2) (_h2 : svc ≠ []) :
    (∀ o, o ∈ df_filtered obs d1 d2 svc ↔
        o ∈ obs ∧ (dayStart d1 ≤ o.hour ∧ o.hour ≤ dayEnd d2) ∧ o.service ∈ svc) ∧
    (∀ out, aggregate obs [d1, d2] tw m svc = .ok out →
        ∀ a ∈ out, a.service ∈ svc ∧ dayStart d1 ≤ a.group ∧ a.group ≤ dayEnd d2) := by
  refine ⟨fun o => mem_df_filtered, ?_⟩
  intro out hout a ha
  cases tw with
  | Week => cases hout
  | Hour =>
    rw [aggregate] at hout
    simp only [List.getElem?_cons_zero, List.getElem?_cons_succ] at hout
    rcases Except.ok.inj hout with rfl
    rcases mem_agg_buckets ha with ⟨r, hr, hg, hs⟩
    rcases List.mem_map.mp hr with ⟨o, ho, rfl⟩
    rcases mem_df_filtered.mp ho with ⟨_, ⟨hw1, hw2⟩, hsvc⟩
    refine ⟨hs ▸ hsvc, hg ▸ hw1, hg ▸ hw2⟩
  | Day =>
    rw [aggregate] at hout
    simp only [List.getElem?_cons_zero, List.getElem?_cons_succ] at hout
    rcases Except.ok.inj hout with rfl
    rcases mem_agg_buckets ha with ⟨r, hr, hg, hs⟩
    rcases List.mem_map.mp hr with ⟨o, ho, rfl⟩
    rcases mem_df_filtered.mp ho with ⟨_, ⟨hw1, hw2⟩, hsvc⟩
    refine ⟨hs ▸ hsvc, hg ▸ ?_, hg ▸ ?_⟩
    · show dayStart d1 ≤ floorDay o.hour
      rw [dayStart] at hw1 ⊢
      rw [floorDay]
      have : d1 ≤ o.hour / 86400 := Nat.le_div_iff_mul_le (by norm_num) |>.mpr hw1
      exact Nat.mul_le_mul_right _ this
    · show floorDay o.hour ≤ dayEnd d2
      exact le_trans (Nat.div_mul_le_self o.hour 86400) hw2

/-- C3, witness at a concrete three-row dataset. -/
theorem c3_filter_window_witness :
    (∀ o, o ∈ df_filtered [⟨0, "a", 10, 2⟩, ⟨3600, "a", 20, 3⟩, ⟨7200, "a", 15, 2⟩] 0 0 ["a"] ↔
        o ∈ [⟨0, "a", 10, 2⟩, ⟨3600, "a", 20, 3⟩, ⟨7200, "a", 15, 2⟩] ∧
          (dayStart 0 ≤ o.hour ∧ o.hour ≤ dayEnd 0) ∧ o.service ∈ ["a"]) ∧
    (∀ out, aggregate [⟨0, "a", 10, 2⟩, ⟨3600, "a", 20, 3⟩, ⟨7200, "a", 15, 2⟩] [0, 0]
        .Hour .Maximum ["a"] = .ok out →
        ∀ a ∈ out, a.service ∈ ["a"] ∧ dayStart 0 ≤ a.group ∧ a.group ≤ dayEnd 0) :=
  c3_filter_window [⟨0, "a", 10, 2⟩, ⟨3600, "a", 20, 3⟩, ⟨7200, "a", 15, 2⟩] 0 0 ["a"]
    .Hour .Maximum (by decide) (by decide)

/-- C4: selecting the `Week` granularity always raises — pandas
`Series.dt.floor("W")` rejects the non-fixed week frequency, for every
dataset, date range and statistic, instead of flooring to any week start. -/
theorem c4_week_floor_raises (obs : List Obs) (d1 d2 : Nat) (m : AggMethod)
    (svc : List String) :
    aggregate obs [d1, d2] .Week m svc = .error .nonFixedFrequencyFloor := rfl

/-- C5: the aggregation emits exactly one bucket per `(bucket_start, service)`
pair present in the (bucketed) filtered input — the emitted key list has no
duplicates and its members are exactly the keys occurring in the input — and
each bucket's `tps` and `pods` are the chosen statistic of the group's
respective column. -/
theorem c5_group_by (m : AggMethod) (rows : List BRow) (_h : rows ≠ []) :
    ((df_agg m rows).map fun a => (a.group, a.service)).Nodup ∧
    (∀ g s, ((g, s) ∈ (df_agg m rows).map fun a => (a.group, a.service)) ↔
        ∃ r ∈ rows, r.group = g ∧ r.service = s) ∧
    (∀ a ∈ df_agg m rows,
        a.tps = reduce_stat m ((rows.filter fun r =>
            r.group == a.group && r.service == a.service).map (·.tps)) ∧
        a.pods = reduce_stat m ((rows.filter fun r =>
            r.group == a.group && r.service == a.service).map (·.pods))) := by
  refine ⟨?_, ?_, ?_⟩
  · rw [df_agg_keys]
    exact nodup_group_keys rows
  · intro g s
    rw [df_agg_keys]
    exact mem_group_keys
  · intro a ha
    exact df_agg_values ha

/-- C5, witness on a two-row input sharing one bucket key. -/
theorem c5_group_by_witness :
    ((df_agg .Average [⟨0, "a", 10, 2⟩, ⟨0, "a", 20, 4⟩]).map
        fun a => (a.group, a.service)).Nodup ∧
    (∀ g s, ((g, s) ∈ (df_agg .Average [⟨0, "a", 10, 2⟩, ⟨0, "a", 20, 4⟩]).map
        fun a => (a.group, a.service)) ↔
        ∃ r ∈ [(⟨0, "a", 10, 2⟩ : BRow), ⟨0, "a", 20, 4⟩], r.group = g ∧ r.service = s) ∧
    (∀ a ∈ df_agg .Average [⟨0, "a", 10, 2⟩, ⟨0, "a", 20, 4⟩],
        a.tps = reduce_stat .Average (([(⟨0, "a", 10, 2⟩ : BRow), ⟨0, "a", 20, 4⟩].filter
            fun r => r.group == a.group && r.service == a.service).map (·.tps)) ∧
        a.pods = reduce_stat .Average (([(⟨0, "a", 10, 2⟩ : BRow), ⟨0, "a", 20, 4⟩].filter
            fun r => r.group == a.group && r.service == a.service).map (·.pods))) :=
  c5_group_by .Average [⟨0, "a", 10, 2⟩, ⟨0, "a", 20, 4⟩] (by decide)

/-- C6: for a service with at least one aggregated bucket, the computed peak
is the maximum bucket value of each metric, and the reported peak time is the
`bucket_start` of the earliest bucket attaining that maximum (ties resolved
to the earliest, because the groupby output is sorted by `bucket_start` and
`idxmax` returns the first maximal row). -/
theorem c6_peak_earliest_tie (m : AggMethod) (rows : List BRow) (s : String) (st : SStats)
    (h : service_stats (df_agg m rows) s = .ok st) :
    ((∀ a ∈ (df_agg m rows).filter (fun r => r.service == s), a.tps ≤ st.peakTps) ∧
     (∃ a ∈ (df_agg m rows).filter (fun r => r.service == s),
        a.tps = st.peakTps ∧ a.group = st.peakTpsTime) ∧
     (∀ a ∈ (df_agg m rows).filter (fun r => r.service == s),
        a.tps = st.peakTps → st.peakTpsTime ≤ a.group)) ∧
    ((∀ a ∈ (df_agg m rows).filter (fun r => r.service == s), a.pods ≤ st.peakPods) ∧
     (∃ a ∈ (df_agg m rows).filter (fun r => r.service == s),
        a.pods = st.peakPods ∧ a.group = st.peakPodsTime) ∧
     (∀ a ∈ (df_agg m rows).filter (fun r => r.service == s),
        a.pods = st.peakPods → st.peakPodsTime ≤ a.group)) := by
  have hpw := service_rows_strict_mono m rows s
  rcases hfilter : (df_agg m rows).filter (fun r => r.service == s) with _ | ⟨r, rs⟩
  · rw [service_stats.eq_def, hfilter] at h
    cases h
  · rw [service_stats.eq_def, hfilter] at h
    rcases Except.ok.inj h with rfl
    rw [hfilter] at hpw
    obtain ⟨hmemT, hmaxT, htieT⟩ := firstArgmax_spec (fun a => a.tps) rs r hpw
    obtain ⟨hmemP, hmaxP, htieP⟩ := firstArgmax_spec (fun a => a.pods) rs r hpw
    rw [hfilter]
    have keyT : rs.foldl (fun a x => max a x.tps) r.tps =
        (firstArgmax (fun a => a.tps) r rs).tps := foldl_max_eq_argmax _ rs r
    have keyP : rs.foldl (fun a x => max a x.pods) r.pods =
        (firstArgmax (fun a => a.pods) r rs).pods := foldl_max_eq_argmax _ rs r
    refine ⟨⟨?_, ?_, ?_⟩, ⟨?_, ?_, ?_⟩⟩
    · intro a ha
      show a.tps ≤ rs.foldl (fun a x => max a x.tps) r.tps
      rw [keyT]
      exact hmaxT a ha
    · refine ⟨firstArgmax (fun a => a.tps) r rs, hmemT, ?_, rfl⟩
      show (firstArgmax (fun a => a.tps) r rs).tps = rs.foldl (fun a x => max a x.tps) r.tps
      rw [keyT]
    · intro a ha htie
      have htie' : a.tps = (firstArgmax (fun a => a.tps) r rs).tps := by
        rw [← keyT]
        exact htie
      exact htieT a ha htie'
    · intro a ha
      show a.pods ≤ rs.foldl (fun a x => max a x.pods) r.pods
      rw [keyP]
      exact hmaxP a ha
    · refine ⟨firstArgmax (fun a => a.pods) r rs, hmemP, ?_, rfl⟩
      show (firstArgmax (fun a => a.pods) r rs).pods = rs.foldl (fun a x => max a x.pods) r.pods
      rw [keyP]
    · intro a ha htie
      have htie' : a.pods = (firstArgmax (fun a => a.pods) r rs).pods := by
        rw [← keyP]
        exact htie
      exact htieP a ha htie'

/-- C6, witness on a dataset with two buckets tied at the maximum of each
metric's peak: the reported peak time is the earlier bucket. -/
theorem c6_peak_earliest_tie_witness :
    ((∀ a ∈ (df_agg .Maximum [⟨0, "a", 20, 3⟩, ⟨3600, "a", 20, 2⟩]).filter
        (fun r => r.service == "a"), a.tps ≤ (20 : ℚ)) ∧
     (∃ a ∈ (df_agg .Maximum [⟨0, "a", 20, 3⟩, ⟨3600, "a", 20, 2⟩]).filter
        (fun r => r.service == "a"), a.tps = (20 : ℚ) ∧ a.group = 0) ∧
     (∀ a ∈ (df_agg .Maximum [⟨0, "a", 20, 3⟩, ⟨3600, "a", 20, 2⟩]).filter
        (fun r => r.service == "a"), a.tps = (20 : ℚ) → 0 ≤ a.group)) ∧
    ((∀ a ∈ (df_agg .Maximum [⟨0, "a", 20, 3⟩, ⟨3600, "a", 20, 2⟩]).filter
        (fun r => r.service == "a"), a.pods ≤ (3 : ℚ)) ∧
     (∃ a ∈ (df_agg .Maximum [⟨0, "a", 20, 3⟩, ⟨3600, "a", 20, 2⟩]).filter
        (fun r => r.service == "a"), a.pods = (3 : ℚ) ∧ a.group = 0) ∧
     (∀ a ∈ (df_agg .Maximum [⟨0, "a", 20, 3⟩, ⟨3600, "a", 20, 2⟩]).filter
        (fun r => r.service == "a"), a.pods = (3 : ℚ) → 0 ≤ a.group)) :=
  c6_peak_earliest_tie .Maximum [⟨0, "a", 20, 3⟩, ⟨3600, "a", 20, 2⟩] "a"
    ⟨20, 0, 20, 3, 0, 5/2⟩ (by
      norm_num [service_stats, df_agg, group_keys, sortKeys, insertKey, aggRow, reduce_stat,
        firstArgmax, keyLE, strLe, List.dedup_cons_of_not_mem, List.filter_cons])

/-- C7, counterexample: asking for the statistics of a service with zero
aggregated buckets raises the pandas empty-argmax `ValueError`, not a
`NoDataForService` error. -/
theorem c7_counterexample :
    service_stats (df_agg .Maximum [⟨0, "a", 10, 2⟩]) "b" = .error .emptyArgmax ∧
    service_stats (df_agg .Maximum [⟨0, "a", 10, 2⟩]) "b" ≠ .error .noDataForService := by
  have he : service_stats (df_agg .Maximum [⟨0, "a", 10, 2⟩]) "b" = .error .emptyArgmax := rfl
  refine ⟨he, ?_⟩
  rw [he]
  simp

/-- C7, amended: for a service with zero buckets the statistics loop does
fail, but with the `ValueError` that `Series.idxmax()` raises on an empty
series — the script has no `NoDataForService` error. -/
theorem c7_no_rows_amended (dfa : List ARow) (s : String)
    (h : dfa.filter (fun r => r.service == s) = []) :
    service_stats dfa s = .error .emptyArgmax ∧
    service_stats dfa s ≠ .error .noDataForService := by
  have he : service_stats dfa s = .error .emptyArgmax := by
    rw [service_stats.eq_def, h]
  refine ⟨he, ?_⟩
  rw [he]
  simp

/-- C7, witness for the amended theorem: service `"b"` is absent from a
one-service aggregate. -/
theorem c7_no_rows_witness :
    service_stats [⟨0, "a", 10, 2⟩] "b" = .error .emptyArgmax ∧
    service_stats [⟨0, "a", 10, 2⟩] "b" ≠ .error .noDataForService :=
  c7_no_rows_amended [⟨0, "a", 10, 2⟩] "b" (by decide)

/-- C8: under `Hour` granularity a bucket holding exactly one filtered
observation reproduces that observation's raw `tps` and `pods` unchanged,
whatever statistic is selected. -/
theorem c8_hour_singleton_identity (obs : List Obs) (d1 d2 : Nat) (svc : List String)
    (m : AggMethod) (g : Nat) (s : String) (o : Obs)
    (h : (df_filtered obs d1 d2 svc).filter (fun x => x.hour == g && x.service == s) = [o]) :
    ∃ out, aggregate obs [d1, d2] .Hour m svc = .ok out ∧
      ∃ a ∈ out, a.group = g ∧ a.service = s ∧ a.tps = o.tps ∧ a.pods = o.pods := by
  refine ⟨_, rfl, ?_⟩
  have ho : o ∈ (df_filtered obs d1 d2 svc).filter (fun x => x.hour == g && x.service == s) := by
    rw [h]
    exact List.mem_singleton.mpr rfl
  have homem := (List.mem_filter.mp ho).1
  have hkey := (List.mem_filter.mp ho).2
  rw [Bool.and_eq_true] at hkey
  have hog : o.hour = g := by simpa using hkey.1
  have hos : o.service = s := by simpa using hkey.2
  have hbk : (g, s) ∈ group_keys ((df_filtered obs d1 d2 svc).map
      fun x => BRow.mk x.hour x.service x.tps x.pods) :=
    mem_group_keys.mpr ⟨BRow.mk o.hour o.service o.tps o.pods,
      List.mem_map_of_mem _ homem, hog, hos⟩
  have hfilt : (((df_filtered obs d1 d2 svc).map
        fun x => BRow.mk x.hour x.service x.tps x.pods).filter
      fun r => r.group == g && r.service == s) =
      [BRow.mk o.hour o.service o.tps o.pods] := by
    rw [filter_map_comm]
    exact congrArg (List.map _) h
  refine ⟨aggRow m ((df_filtered obs d1 d2 svc).map
      fun x => BRow.mk x.hour x.service x.tps x.pods) (g, s),
    mem_df_agg.mpr ⟨(g, s), hbk, rfl⟩, rfl, rfl, ?_, ?_⟩
  · show reduce_stat m ((((df_filtered obs d1 d2 svc).map
        fun x => BRow.mk x.hour x.service x.tps x.pods).filter
        fun r => r.group == g && r.service == s).map (·.tps)) = o.tps
    rw [hfilt]
    exact reduce_stat_singleton m o.tps
  · show reduce_stat m ((((df_filtered obs d1 d2 svc).map
        fun x => BRow.mk x.hour x.service x.tps x.pods).filter
        fun r => r.group == g && r.service == s).map (·.pods)) = o.pods
    rw [hfilt]
    exact reduce_stat_singleton m o.pods

/-- C8, witness: the middle row of the three-hour example is reproduced
unchanged by an `Average` aggregation at `Hour` granularity. -/
theorem c8_hour_singleton_identity_witness :
    ∃ out, aggregate [⟨0, "a", 10, 2⟩, ⟨3600, "a", 20, 3⟩, ⟨7200, "a", 15, 2⟩] [0, 0]
        .Hour .Average ["a"] = .ok out ∧
      ∃ a ∈ out, a.group = 3600 ∧ a.service = "a" ∧ a.tps = (20 : ℚ) ∧ a.pods = (3 : ℚ) :=
  c8_hour_singleton_identity [⟨0, "a", 10, 2⟩, ⟨3600, "a", 20, 3⟩, ⟨7200, "a", 15, 2⟩]
    0 0 ["a"] .Average 3600 "a" ⟨3600, "a", 20, 3⟩ (by decide)

/-- C9, counterexample: with a single aggregated bucket the correlation step
does not fail — pandas `corr` yields `NaN` and the script renders it. -/
theorem c9_counterexample :
    ((df_agg .Maximum [⟨0, "a", 10, 2⟩]).filter fun r => r.service == "a").length = 1 ∧
    correlation_coefficient (df_agg .Maximum [⟨0, "a", 10, 2⟩]) "a" = .nan := by
  constructor
  · norm_num [df_agg, group_keys, sortKeys, insertKey, aggRow, reduce_stat]
  · norm_num [correlation_coefficient, series_corr, df_agg, group_keys, sortKeys, insertKey,
      aggRow, reduce_stat]

/-- C9, amended: with fewer than two buckets for the service the correlation
coefficient is `NaN` (an ordinary value, rendered as such); the script never
raises an `InsufficientData` error. -/
theorem c9_few_buckets_nan_amended (dfa : List ARow) (s : String)
    (h : (dfa.filter fun r => r.service == s).length < 2) :
    correlation_coefficient dfa s = .nan := by
  rcases hf : dfa.filter fun r => r.service == s with _ | ⟨a, t⟩
  · rw [correlation_coefficient, hf]
    rfl
  · rcases t with _ | ⟨b, t2⟩
    · rw [correlation_coefficient, hf]
      simp [series_corr]
    · rw [hf] at h
      simp at h
      omega

/-- C9, witness for the amended theorem at a one-bucket service. -/
theorem c9_few_buckets_nan_witness :
    correlation_coefficient [⟨0, "a", 10, 2⟩] "a" = .nan :=
  c9_few_buckets_nan_amended [⟨0, "a", 10, 2⟩] "a" (by decide)

/-- C10: a date range holding a single date makes the pipeline fail with the
`IndexError` from `date_range[1]` (not any of the specification's named
errors), and with two or more dates that failure cannot occur. -/
theorem c10_short_date_range (obs : List Obs) (d a b : Nat) (t : List Nat)
    (tw : TimeWindow) (m : AggMethod) (svc : List String) :
    aggregate obs [d] tw m svc = .error .indexOutOfRange ∧
    aggregate obs (a :: b :: t) tw m svc ≠ .error .indexOutOfRange := by
  constructor
  · rfl
  · cases tw <;> simp [aggregate]
